import Mathlib

/-!
Shallow embedding of the order-placement, cart and inventory core of the
ecommerce-api repository (src/ecommerce-api/src).  Mongo ObjectIds are
modelled as Nat, JS numbers holding money as ℚ, integer stock counts as ℤ,
and each controller as a function from the persisted state to either an
AppError (the source returns through the error handler before writing) or
the new persisted state.  Date-valued fields and random order numbers are
outside the model.
-/

deriving instance DecidableEq for Except

namespace ECom

/-- Role of an authenticated principal (req.user.role, values user/admin). -/
inductive Role
  | user
  | admin
deriving Repr, DecidableEq

/-- Authenticated principal attached to each request (req.user). -/
structure Principal where
  id : Nat
  role : Role
deriving Repr, DecidableEq

/-- Product document (src/models/Product.js).  stock is an integer (schema
validator Number.isInteger) modelled as ℤ so that non-negativity (schema
min 0) is a provable property rather than a typing fiat; price is a JS
number modelled as ℚ.  Catalog fields never read by the verified
operations (description, category, images, brand, sku, createdBy,
timestamps) are omitted. -/
structure Product where
  pid : Nat
  name : String
  price : ℚ
  stock : ℤ
  isActive : Bool
deriving Repr, DecidableEq

/-- Application error value of the error layer
(src/middlewares/errorHandler.js, whose source is embedded in the
src/config/database.js concatenation): the AppError class carries a
message, an HTTP statusCode and a machine-readable type — the class
constructor defaults the type to "ApplicationError", but every modelled
call site passes it explicitly — and the helpers may attach an optional
field name.  The constructor also sets a constant isOperational flag
that no modelled operation ever reads, and the mongoose-validation
branch of the handler adds a per-field message map, likewise never
read; neither is carried here. -/
structure AppError where
  message : String
  statusCode : Nat
  type : String
  field : Option String
deriving Repr, DecidableEq

/-- Construction through the AppError class constructor (errorHandler.js,
the class at the end of the database.js concatenation): no field
property is attached. -/
def mkAppError (message : String) (statusCode : Nat) (type : String) : AppError :=
  ⟨message, statusCode, type, none⟩

/-- createValidationError of errorHandler.js: an AppError of kind
ValidationError, carrying the optional field name when one is given —
the source defaults the field parameter to null. -/
def createValidationError (message : String) (field : Option String) : AppError :=
  { mkAppError message 400 "ValidationError" with field := field }

/-- createNotFoundError of errorHandler.js: a NotFoundError for the
named resource — the source defaults the resource parameter to
"Resource", and every modelled call site names it explicitly. -/
def createNotFoundError (resource : String) : AppError :=
  mkAppError (resource ++ " not found") 404 "NotFoundError"

/-- The error response the errorHandler builds when a document save is
rejected by mongoose schema validation (the ValidationError branch of
errorHandler.js): statusCode 400, kind ValidationError, and the joined
schema messages prefixed by "Validation Error: ".  The modelled
controller path reaching it is the save of a product whose stock would
violate the schema minimum of Product.js. -/
def mongooseValidationError (message : String) : AppError :=
  { message := "Validation Error: " ++ message
    statusCode := 400
    type := "ValidationError"
    field := none }

/-- Product.findById / a populated product reference: the document with the
matching (unique) id. -/
def findProduct (ps : List Product) (pid : Nat) : Option Product :=
  ps.find? (fun p => p.pid == pid)

/-- findByIdAndUpdate of the stock field, or save() of a fetched document
whose stock was changed: replace the stock of the (unique) document with
the matching id, modelled as updating the first match; f maps the old
stock to the new one. -/
def modifyStockFirst : List Product → Nat → (ℤ → ℤ) → List Product
  | [], _, _ => []
  | p :: rest, pid, f =>
    if p.pid == pid then { p with stock := f p.stock } :: rest
    else p :: modifyStockFirst rest pid f

/-- Cart line (src/models/Cart.js cartItemSchema): a product reference, a
positive integer quantity, and the price snapshot taken when the line was
created. -/
structure CartItem where
  product : Nat
  quantity : Nat
  price : ℚ
deriving Repr, DecidableEq

/-- Cart document (src/models/Cart.js): the requesting user has exactly one
cart; totalItems and totalAmount are stored derived fields. -/
structure Cart where
  items : List CartItem
  totalItems : Nat
  totalAmount : ℚ
deriving Repr, DecidableEq

namespace Cart

/-- Virtual isEmpty (Cart.js lines 76-78). -/
def isEmpty (c : Cart) : Bool := c.items.isEmpty

/-- calculateTotals (Cart.js lines 98-101): totalItems is the sum of the
quantities, totalAmount the sum of price times quantity. -/
def calculateTotals (c : Cart) : Cart :=
  { c with
    totalItems := c.items.foldl (fun total item => total + item.quantity) 0
    totalAmount := c.items.foldl (fun total item => total + item.price * (item.quantity : ℚ)) 0 }

/-- cart.save(): the pre-save hook recomputes the totals (Cart.js lines
90-93).  The 50-line capacity validator is not modelled; no verified claim
involves it. -/
def save (c : Cart) : Cart := c.calculateTotals

/-- Body of addItem (Cart.js lines 109-127): find the existing line for the
product; if present, add the quantity to it (nothing else on the line is
touched); otherwise push a new line holding the product id, the quantity
and the product price as snapshot. -/
def addItemGo (pid : Nat) (quantity : Nat) (price : ℚ) : List CartItem → List CartItem
  | [] => [{ product := pid, quantity := quantity, price := price }]
  | item :: rest =>
    if item.product == pid then { item with quantity := item.quantity + quantity } :: rest
    else item :: addItemGo pid quantity price rest

/-- addItem (Cart.js lines 109-127). -/
def addItem (c : Cart) (productData : Product) (quantity : Nat) : Cart :=
  { c with items := addItemGo productData.pid quantity productData.price c.items }

/-- Body of updateItemQuantity (Cart.js lines 135-150): on the first line of
the product, a quantity of at most 0 removes the line, otherwise the
quantity is replaced. -/
def updateItemQuantityGo (pid : Nat) (quantity : ℤ) : List CartItem → List CartItem
  | [] => []
  | item :: rest =>
    if item.product == pid then
      if quantity ≤ 0 then rest
      else { item with quantity := quantity.toNat } :: rest
    else item :: updateItemQuantityGo pid quantity rest

/-- updateItemQuantity (Cart.js lines 135-150). -/
def updateItemQuantity (c : Cart) (productId : Nat) (quantity : ℤ) : Cart :=
  { c with items := updateItemQuantityGo productId quantity c.items }

/-- removeItem (Cart.js lines 157-163): drop every line of the product. -/
def removeItem (c : Cart) (productId : Nat) : Cart :=
  { c with items := c.items.filter (fun item => !(item.product == productId)) }

/-- The boolean result of removeItem: whether some line was removed. -/
def removeItemFound (c : Cart) (productId : Nat) : Bool :=
  c.items.any (fun item => item.product == productId)

/-- clearCart (Cart.js lines 168-172). -/
def clearCart (c : Cart) : Cart :=
  { c with items := [], totalItems := 0, totalAmount := 0 }

/-- getItem (Cart.js lines 179-183). -/
def getItem (c : Cart) (productId : Nat) : Option CartItem :=
  c.items.find? (fun item => item.product == productId)

end Cart

/-- orderStatus enumeration of the Order schema. -/
inductive OrderStatus
  | pending
  | confirmed
  | processing
  | shipped
  | delivered
  | cancelled
deriving Repr, DecidableEq

/-- paymentStatus enumeration of the Order schema. -/
inductive PaymentStatus
  | pending
  | completed
  | failed
  | refunded
deriving Repr, DecidableEq

/-- Order line snapshot (orderItemSchema of the Order model, found in the
src/routes/cartRoutes.js concatenation). -/
structure OrderItem where
  product : Nat
  name : String
  price : ℚ
  quantity : Nat
  subtotal : ℚ
deriving Repr, DecidableEq

/-- Required fields of shippingAddressSchema (country has a default and
phone is optional; both are omitted).  A missing or falsy field of the
request body is modelled as the empty string. -/
structure ShippingAddress where
  fullName : String
  addressLine1 : String
  city : String
  state : String
  zipCode : String
deriving Repr, DecidableEq

/-- Order document (orderSchema).  The Mongo id and the random orderNumber
are modelled together as one fresh numeric id oid; Date fields
(timestamps, estimatedDelivery, deliveredAt, cancelledAt) are real-time
data and are not modelled. -/
structure Order where
  oid : Nat
  user : Nat
  items : List OrderItem
  totalItems : Nat
  subtotal : ℚ
  tax : ℚ
  shipping : ℚ
  totalAmount : ℚ
  paymentMethod : String
  paymentStatus : PaymentStatus
  orderStatus : OrderStatus
  shippingAddress : ShippingAddress
  notes : Option String
  cancellationReason : Option String
deriving Repr, DecidableEq

namespace Order

/-- Virtual canBeCancelled: the status is pending or confirmed. -/
def canBeCancelled (o : Order) : Bool :=
  o.orderStatus == OrderStatus.pending || o.orderStatus == OrderStatus.confirmed

/-- calculateTotals of the Order model: recompute subtotal from the stored
line subtotals and totalItems from the quantities, set totalAmount to
subtotal plus tax plus shipping, then reset every line subtotal to price
times quantity. -/
def calculateTotals (o : Order) : Order :=
  let sub := o.items.foldl (fun total item => total + item.subtotal) 0
  let ti := o.items.foldl (fun total item => total + item.quantity) 0
  { o with
    subtotal := sub
    totalItems := ti
    totalAmount := sub + o.tax + o.shipping
    items := o.items.map (fun item => { item with subtotal := item.price * (item.quantity : ℚ) }) }

/-- order.save(): the pre-save hook recomputes the totals.  Order number
generation and the delivery estimate are a random and a clock effect and
are not modelled. -/
def save (o : Order) : Order := o.calculateTotals

/-- updateStatus of the Order model: set the requested status
unconditionally; delivered additionally completes the payment, cancelled
additionally records the reason; then save.  The source performs no
transition validation of any kind. -/
def updateStatus (o : Order) (status : OrderStatus) (reason : Option String) : Order :=
  let o1 := { o with orderStatus := status }
  let o2 :=
    if status == OrderStatus.delivered then { o1 with paymentStatus := PaymentStatus.completed }
    else if status == OrderStatus.cancelled then { o1 with cancellationReason := reason }
    else o1
  o2.save

end Order

/-- Order.findById: the document with the matching (unique) id. -/
def findOrder (os : List Order) (oid : Nat) : Option Order :=
  os.find? (fun o => o.oid == oid)

/-- Persisting a save() of a fetched and mutated order document: replace
the (unique) document carrying the same id. -/
def replaceOrder : List Order → Order → List Order
  | [], _ => []
  | o :: rest, o' => if o.oid == o'.oid then o' :: rest else o :: replaceOrder rest o'

/-- The persisted state the verified operations read and write: the product
collection, the requesting user's (unique, lazily created) cart, and the
order collection. -/
structure DB where
  products : List Product
  cart : Cart
  orders : List Order
deriving Repr, DecidableEq

/-- Place-order request body plus its authenticated user (placeOrder of
src/controllers/orderController.js).  A missing or falsy paymentMethod is
the empty string; a missing shippingAddress is none. -/
structure PlaceReq where
  paymentMethod : String
  shippingAddress : Option ShippingAddress
  notes : Option String
  userId : Nat
deriving Repr, DecidableEq

/-- The required-address-field loop of placeOrder (orderController.js lines
30-35): the first missing field aborts. -/
def checkAddress (addr : ShippingAddress) : Option AppError :=
  if addr.fullName = "" then some (createValidationError "Shipping address fullName is required" none)
  else if addr.addressLine1 = "" then
    some (createValidationError "Shipping address addressLine1 is required" none)
  else if addr.city = "" then some (createValidationError "Shipping address city is required" none)
  else if addr.state = "" then some (createValidationError "Shipping address state is required" none)
  else if addr.zipCode = "" then some (createValidationError "Shipping address zipCode is required" none)
  else none

/-- The error, if any, the placeOrder validation loop (orderController.js
lines 47-62) raises for one cart line: ValidationError when the product is
missing or inactive, StockError carrying the available stock when the
requested quantity exceeds it. -/
def lineError (ps : List Product) (ci : CartItem) : Option AppError :=
  match findProduct ps ci.product with
  | none =>
    some (mkAppError "Product \"Unknown\" is no longer available" 400 "ValidationError")
  | some product =>
    if !product.isActive then
      some (mkAppError ("Product \"" ++ product.name ++ "\" is no longer available") 400
        "ValidationError")
    else if product.stock < (ci.quantity : ℤ) then
      some (mkAppError ("Insufficient stock for \"" ++ product.name ++ "\". Only " ++
        toString product.stock ++ " available.") 400 "StockError")
    else none

/-- The cart-validation loop of placeOrder (orderController.js lines
47-75): the first offending line aborts the whole placement with its
error; otherwise the order-line snapshots (live product name and price,
cart quantity, computed line subtotal) and the accumulated subtotal are
produced. -/
def validateItems (ps : List Product) : List CartItem → Except AppError (List OrderItem × ℚ)
  | [] => Except.ok ([], 0)
  | ci :: rest =>
    match findProduct ps ci.product with
    | none =>
      Except.error (mkAppError "Product \"Unknown\" is no longer available" 400
        "ValidationError")
    | some product =>
      if !product.isActive then
        Except.error (mkAppError ("Product \"" ++ product.name ++ "\" is no longer available")
          400 "ValidationError")
      else if product.stock < (ci.quantity : ℤ) then
        Except.error (mkAppError ("Insufficient stock for \"" ++ product.name ++ "\". Only " ++
          toString product.stock ++ " available.") 400 "StockError")
      else
        match validateItems ps rest with
        | Except.error e => Except.error e
        | Except.ok res =>
          Except.ok ({ product := product.pid
                       name := product.name
                       price := product.price
                       quantity := ci.quantity
                       subtotal := product.price * (ci.quantity : ℚ) } :: res.1,
            product.price * (ci.quantity : ℚ) + res.2)

/-- The stock-decrement loop of placeOrder (orderController.js lines
98-104): an unconditional findByIdAndUpdate $inc of minus the ordered
quantity, one product at a time. -/
def decStocks (ps : List Product) (items : List OrderItem) : List Product :=
  items.foldl
    (fun ps item => modifyStockFirst ps item.product (fun s => s + -(item.quantity : ℤ))) ps

/-- The stock-restore loop of cancelOrder (orderController.js lines
389-395): an unconditional findByIdAndUpdate $inc of plus the ordered
quantity, one product at a time. -/
def incStocks (ps : List Product) (items : List OrderItem) : List Product :=
  items.foldl
    (fun ps item => modifyStockFirst ps item.product (fun s => s + (item.quantity : ℤ))) ps

/-- placeOrder (orderController.js lines 12-136), sequential semantics:
validate the request fields and every cart line; on success create the
order (schema defaults pending/pending, fresh id, pre-save hook), apply
the per-line stock decrements, then clear and save the cart.  Every error
path of the source returns before any write, so an error leaves the
persisted state untouched. -/
def placeOrder (db : DB) (req : PlaceReq) : Except AppError (DB × Order) :=
  if req.paymentMethod = "" then
    Except.error (createValidationError "Payment method is required" none)
  else
    match req.shippingAddress with
    | none => Except.error (createValidationError "Shipping address is required" none)
    | some addr =>
      match checkAddress addr with
      | some e => Except.error e
      | none =>
        if db.cart.isEmpty then
          Except.error (mkAppError "Cart is empty. Cannot place order." 400 "ValidationError")
        else
          match validateItems db.products db.cart.items with
          | Except.error e => Except.error e
          | Except.ok res =>
            let orderItems := res.1
            let subtotal := res.2
            let tax := subtotal * (8 / 100)
            let shipping : ℚ := if subtotal > 50 then 0 else 10
            let totalAmount := subtotal + tax + shipping
            let order : Order := Order.save
              { oid := db.orders.length
                user := req.userId
                items := orderItems
                totalItems := db.cart.totalItems
                subtotal := subtotal
                tax := tax
                shipping := shipping
                totalAmount := totalAmount
                paymentMethod := req.paymentMethod
                paymentStatus := PaymentStatus.pending
                orderStatus := OrderStatus.pending
                shippingAddress := addr
                notes := req.notes
                cancellationReason := none }
            Except.ok ({ products := decStocks db.products orderItems
                         cart := (db.cart.clearCart).save
                         orders := db.orders ++ [order] }, order)

/-- cancelOrder (orderController.js lines 368-413): find the order, check
ownership (owner or admin), check the cancellable predicate, restore the
stock of every line, then updateStatus cancelled with the reason. -/
def cancelOrder (db : DB) (oid : Nat) (reason : Option String) (who : Principal) :
    Except AppError DB :=
  match findOrder db.orders oid with
  | none => Except.error (createNotFoundError "Order")
  | some order =>
    if who.role ≠ Role.admin ∧ order.user ≠ who.id then
      Except.error (mkAppError "Access denied. You can only cancel your own orders." 403
        "AuthorizationError")
    else if !order.canBeCancelled then
      Except.error (mkAppError "Order cannot be cancelled at this stage" 400 "ValidationError")
    else
      Except.ok { db with
        products := incStocks db.products order.items,
        orders := replaceOrder db.orders (order.updateStatus OrderStatus.cancelled reason) }

/-- updateOrderStatus (orderController.js lines 329-361): the admin status
endpoint; requires a status in the body, finds the order, and calls
Order.updateStatus.  It never touches the product collection. -/
def updateOrderStatus (db : DB) (oid : Nat) (status : Option OrderStatus)
    (reason : Option String) : Except AppError DB :=
  match status with
  | none => Except.error (createValidationError "Status is required" none)
  | some st =>
    match findOrder db.orders oid with
    | none => Except.error (createNotFoundError "Order")
    | some order =>
      Except.ok { db with orders := replaceOrder db.orders (order.updateStatus st reason) }

/-- The keep-condition of the getCart filter (cartController.js lines
22-24): the populated product exists, is active, and has positive stock. -/
def liveLine (ps : List Product) (item : CartItem) : Bool :=
  match findProduct ps item.product with
  | some p => p.isActive && decide (0 < p.stock)
  | none => false

/-- getCart (cartController.js lines 11-48): prune the lines of missing,
inactive or out-of-stock products; when anything was pruned (the length
test of line 27), recompute the totals and save the cart. -/
def getCart (db : DB) : DB :=
  if (db.cart.items.filter (liveLine db.products)).length ≠ db.cart.items.length then
    { db with cart := (Cart.calculateTotals
        { db.cart with items := db.cart.items.filter (liveLine db.products) }).save }
  else db

/-- addToCart (cartController.js lines 55-118): validate the quantity, find
the active product, check the stock against the quantity and against the
new accumulated line quantity, then Cart.addItem and save. -/
def addToCart (db : DB) (productId : Nat) (quantity : ℤ) : Except AppError DB :=
  if quantity ≤ 0 then
    Except.error (createValidationError "Quantity must be a positive integer" none)
  else
    match db.products.find? (fun p => p.pid == productId && p.isActive) with
    | none => Except.error (createNotFoundError "Product")
    | some product =>
      if product.stock < quantity then
        Except.error (mkAppError ("Only " ++ toString product.stock ++
          " items available in stock") 400 "StockError")
      else
        let prior : ℤ :=
          match db.cart.getItem productId with
          | some item => (item.quantity : ℤ)
          | none => 0
        if product.stock < prior + quantity then
          Except.error (mkAppError ("Cannot add " ++ toString quantity ++ " items. Only " ++
            toString (product.stock - prior) ++ " more available") 400 "StockError")
        else
          Except.ok { db with cart := (db.cart.addItem product quantity.toNat).save }

/-- updateCartItem (cartController.js lines 125-189): validate the
quantity, require the line, remove on zero, otherwise check the product
and its stock and replace the quantity; then save. -/
def updateCartItem (db : DB) (productId : Nat) (quantity : ℤ) : Except AppError DB :=
  if quantity < 0 then
    Except.error (createValidationError "Quantity must be a non-negative integer" none)
  else
    match db.cart.getItem productId with
    | none => Except.error (createNotFoundError "Item in cart")
    | some _ =>
      if quantity = 0 then
        Except.ok { db with cart := (db.cart.removeItem productId).save }
      else
        match findProduct db.products productId with
        | none => Except.error (createNotFoundError "Product")
        | some product =>
          if !product.isActive then Except.error (createNotFoundError "Product")
          else if product.stock < quantity then
            Except.error (mkAppError ("Only " ++ toString product.stock ++
              " items available in stock") 400 "StockError")
          else
            Except.ok { db with cart := (db.cart.updateItemQuantity productId quantity).save }

/-- removeFromCart (cartController.js lines 196-233). -/
def removeFromCart (db : DB) (productId : Nat) : Except AppError DB :=
  if db.cart.removeItemFound productId then
    Except.ok { db with cart := (db.cart.removeItem productId).save }
  else Except.error (createNotFoundError "Item in cart")

/-- clearCart endpoint (cartController.js lines 240-267). -/
def clearCartOp (db : DB) : DB := { db with cart := (db.cart.clearCart).save }

/-- The operation switch of updateProductStock (productController.js lines
346-359): set takes the requested value, add adds it, subtract subtracts
it and clamps the result at 0. -/
def newStockValue (operation : String) (current s : ℤ) : ℤ :=
  if operation = "set" then s
  else if operation = "add" then current + s
  else if current - s < 0 then 0 else current - s

/-- updateProductStock (productController.js lines 332-375): the admin
stock endpoint; set, add or subtract (subtract clamps at 0), then
product.save(), whose schema validation (Product.js min 0) rejects a
negative result and persists nothing. -/
def updateProductStock (db : DB) (id : Nat) (stock : Option ℤ) (operation : String) :
    Except AppError DB :=
  match stock with
  | none => Except.error (createValidationError "Stock value is required" none)
  | some s =>
    match findProduct db.products id with
    | none => Except.error (createNotFoundError "Product")
    | some product =>
      if operation = "set" ∨ operation = "add" ∨ operation = "subtract" then
        let ns : ℤ := newStockValue operation product.stock s
        if ns < 0 then Except.error (mongooseValidationError "Stock cannot be negative")
        else Except.ok { db with products := modifyStockFirst db.products id (fun _ => ns) }
      else Except.error (createValidationError "Invalid operation. Use: set, add, or subtract" none)

/-- The core operations a client can drive the store through: order
placement and cancellation, the admin status update, the cart reads and
mutations, and the admin stock update. -/
inductive Op
  | place (req : PlaceReq)
  | cancel (oid : Nat) (reason : Option String) (who : Principal)
  | adminStatus (oid : Nat) (status : Option OrderStatus) (reason : Option String)
  | cartGet
  | cartAdd (productId : Nat) (quantity : ℤ)
  | cartUpdate (productId : Nat) (quantity : ℤ)
  | cartRemove (productId : Nat)
  | cartClear
  | stockUpdate (id : Nat) (stock : Option ℤ) (operation : String)
deriving Repr

/-- Execute one operation; a request that errors leaves the persisted
state unchanged, since each controller returns through the error handler
before or instead of writing. -/
def run (db : DB) : Op → DB
  | Op.place req =>
    match placeOrder db req with
    | Except.ok res => res.1
    | Except.error _ => db
  | Op.cancel oid reason who =>
    match cancelOrder db oid reason who with
    | Except.ok db' => db'
    | Except.error _ => db
  | Op.adminStatus oid status reason =>
    match updateOrderStatus db oid status reason with
    | Except.ok db' => db'
    | Except.error _ => db
  | Op.cartGet => getCart db
  | Op.cartAdd productId quantity =>
    match addToCart db productId quantity with
    | Except.ok db' => db'
    | Except.error _ => db
  | Op.cartUpdate productId quantity =>
    match updateCartItem db productId quantity with
    | Except.ok db' => db'
    | Except.error _ => db
  | Op.cartRemove productId =>
    match removeFromCart db productId with
    | Except.ok db' => db'
    | Except.error _ => db
  | Op.cartClear => clearCartOp db
  | Op.stockUpdate id stock operation =>
    match updateProductStock db id stock operation with
    | Except.ok db' => db'
    | Except.error _ => db

/-- All stocks of the catalog are non-negative: the Product schema
invariant (min 0). -/
def stocksNonneg (ps : List Product) : Prop := ∀ p ∈ ps, 0 ≤ p.stock

/-- Each product appears on at most one cart line: the Cart aggregate
keys its lines by product. -/
def cartKeysNodup (c : Cart) : Prop := (c.items.map (fun item => item.product)).Nodup

/-- The store invariant preserved by every core operation. -/
def Inv (db : DB) : Prop := stocksNonneg db.products ∧ cartKeysNodup db.cart

/-- The validation phase of placeOrder for one product and one requested
quantity: the stock read and the comparison of orderController.js line 56
(the request fails when stock < qty). -/
def stockCheck (stock : ℤ) (qty : ℤ) : Bool := !(stock < qty)

/-- The commit phase of placeOrder for one product: the unconditional
findByIdAndUpdate $inc of minus the quantity (orderController.js lines
100-103). -/
def stockDec (stock qty : ℤ) : ℤ := stock - qty

/-- Two concurrent placeOrder requests against the same product, in the
interleaving where both validation reads happen before either commit:
each request awaits between its stock read and its $inc write, so the
second read can occur before the first write. -/
def interleavedPlacements (stock q1 q2 : ℤ) : Bool × Bool × ℤ :=
  let ok1 := stockCheck stock q1
  let ok2 := stockCheck stock q2
  let s1 := if ok1 then stockDec stock q1 else stock
  let s2 := if ok2 then stockDec s1 q2 else s1
  (ok1, ok2, s2)

/-! Concrete stores, products, carts and orders used by the witness and
counterexample theorems below. -/

/-- A fully populated shipping address for the concrete examples. -/
def addr1 : ShippingAddress := ⟨"Jo Doe", "1 Main St", "Springfield", "IL", "62704"⟩

/-- A valid place-order request of user 7 paying by card. -/
def reqW : PlaceReq :=
  { paymentMethod := "Card", shippingAddress := some addr1, notes := none, userId := 7 }

/-- A catalog with one product in stock 10 and an empty cart, the start
state of the C1 operation-sequence witness. -/
def dbC1W : DB := ⟨[⟨1, "Widget", 10, 10, true⟩], ⟨[], 0, 0⟩, []⟩

/-- An order in shipped status over a catalog with stock 8, used by the
C10 witness and the C3 examples. -/
def oShip : Order :=
  { oid := 0
    user := 7
    items := [⟨1, "Widget", 10, 2, 20⟩]
    totalItems := 2
    subtotal := 20
    tax := 0
    shipping := 0
    totalAmount := 20
    paymentMethod := "Card"
    paymentStatus := PaymentStatus.pending
    orderStatus := OrderStatus.shipped
    shippingAddress := addr1
    notes := none
    cancellationReason := none }

/-- Store holding the shipped order. -/
def dbShip : DB := ⟨[⟨1, "Widget", 10, 8, true⟩], ⟨[], 0, 0⟩, [oShip]⟩

/-- The result of the admin endpoint marking the shipped order cancelled. -/
def dbShipC : DB :=
  ⟨[⟨1, "Widget", 10, 8, true⟩], ⟨[], 0, 0⟩,
    [{ oShip with orderStatus := OrderStatus.cancelled }]⟩

/-- A store whose cart references one live product, one missing product,
one inactive product and one out-of-stock product. -/
def dbC9 : DB :=
  ⟨[⟨1, "A", 10, 5, true⟩, ⟨3, "C", 1, 5, false⟩, ⟨4, "D", 1, 0, true⟩],
    ⟨[⟨1, 1, 10⟩, ⟨2, 1, 3⟩, ⟨3, 2, 1⟩, ⟨4, 1, 1⟩], 5, 16⟩, []⟩

/-- The two-product catalog and cart of the worked pricing example:
productA quantity 2 at price 10, productB quantity 1 at price 5. -/
def dbC4 : DB :=
  ⟨[⟨1, "productA", 10, 100, true⟩, ⟨2, "productB", 5, 100, true⟩],
    ⟨[⟨1, 2, 10⟩, ⟨2, 1, 5⟩], 3, 25⟩, []⟩

/-- The order the pricing example produces. -/
def oC4 : Order :=
  { oid := 0
    user := 7
    items := [⟨1, "productA", 10, 2, 20⟩, ⟨2, "productB", 5, 1, 5⟩]
    totalItems := 3
    subtotal := 25
    tax := 2
    shipping := 10
    totalAmount := 37
    paymentMethod := "Card"
    paymentStatus := PaymentStatus.pending
    orderStatus := OrderStatus.pending
    shippingAddress := addr1
    notes := none
    cancellationReason := none }

/-- A store whose single cart line references an inactive product. -/
def dbC2X : DB := ⟨[⟨1, "Gadget", 10, 5, false⟩], ⟨[⟨1, 1, 10⟩], 1, 10⟩, []⟩

/-- The store of the shortfall example: stock 3, requested quantity 5. -/
def dbC2W : DB := ⟨[⟨1, "Gizmo", 4, 3, true⟩], ⟨[⟨1, 5, 4⟩], 5, 20⟩, []⟩

/-- An order already delivered, payment completed. -/
def oDel : Order :=
  { oShip with
    orderStatus := OrderStatus.delivered
    paymentStatus := PaymentStatus.completed }

/-- Store holding the delivered order. -/
def dbDel : DB := ⟨[⟨1, "Widget", 10, 8, true⟩], ⟨[], 0, 0⟩, [oDel]⟩

/-- Catalog with stock 10 and a cart holding quantity 2 of it, the start
state of the C5 example. -/
def dbC5 : DB := ⟨[⟨1, "Widget", 10, 10, true⟩], ⟨[⟨1, 2, 10⟩], 2, 20⟩, []⟩

/-- The order placed from dbC5 (subtotal 20, tax 8/5, shipping 10). -/
def oC5 : Order :=
  { oid := 0
    user := 7
    items := [⟨1, "Widget", 10, 2, 20⟩]
    totalItems := 2
    subtotal := 20
    tax := 8 / 5
    shipping := 10
    totalAmount := 158 / 5
    paymentMethod := "Card"
    paymentStatus := PaymentStatus.pending
    orderStatus := OrderStatus.pending
    shippingAddress := addr1
    notes := none
    cancellationReason := none }

/-- The store after placing oC5: stock 10 went to 8, the cart cleared. -/
def db1C5 : DB := ⟨[⟨1, "Widget", 10, 8, true⟩], ⟨[], 0, 0⟩, [oC5]⟩

/-- The empty cart. -/
def cart0 : Cart := ⟨[], 0, 0⟩

/-- The catalog product before its price change. -/
def p6a : Product := ⟨1, "Widget", 10, 100, true⟩

/-- The same catalog product after its price changed from 10 to 20. -/
def p6b : Product := ⟨1, "Widget", 20, 100, true⟩

/-! Verification: helper lemmas about the embedded operations, followed by
the claim theorems with their witnesses and counterexamples. -/

theorem findProduct_some_pid {ps : List Product} {pid : Nat} {p : Product}
    (h : findProduct ps pid = some p) : p.pid = pid := by
  have h2 := List.find?_some h
  simpa using h2

theorem findProduct_cons_pos {p : Product} {ps : List Product} {pid : Nat}
    (h : p.pid = pid) : findProduct (p :: ps) pid = some p := by
  simp [findProduct, List.find?_cons_of_pos, h]

theorem findProduct_cons_neg {p : Product} {ps : List Product} {pid : Nat}
    (h : ¬ p.pid = pid) : findProduct (p :: ps) pid = findProduct ps pid := by
  simp [findProduct, List.find?_cons_of_neg, h]

theorem modifyStockFirst_cons_pos {p : Product} {ps : List Product} {pid : Nat} {f : ℤ → ℤ}
    (h : p.pid = pid) :
    modifyStockFirst (p :: ps) pid f = { p with stock := f p.stock } :: ps := by
  simp [modifyStockFirst, h]

theorem modifyStockFirst_cons_neg {p : Product} {ps : List Product} {pid : Nat} {f : ℤ → ℤ}
    (h : ¬ p.pid = pid) :
    modifyStockFirst (p :: ps) pid f = p :: modifyStockFirst ps pid f := by
  simp [modifyStockFirst, h]

theorem findProduct_modify_ne {ps : List Product} {pid q : Nat} {f : ℤ → ℤ}
    (h : q ≠ pid) : findProduct (modifyStockFirst ps pid f) q = findProduct ps q := by
  induction ps with
  | nil => rfl
  | cons p rest ih =>
    by_cases hp : p.pid = pid
    · rw [modifyStockFirst_cons_pos hp]
      have hq : ¬ p.pid = q := by
        intro hc; exact h (by rw [← hc, hp])
      rw [findProduct_cons_neg (p := { p with stock := f p.stock }) hq,
        findProduct_cons_neg hq]
    · rw [modifyStockFirst_cons_neg hp]
      by_cases hq : p.pid = q
      · rw [findProduct_cons_pos hq, findProduct_cons_pos hq]
      · rw [findProduct_cons_neg hq, findProduct_cons_neg hq, ih]

theorem stocksNonneg_modify {ps : List Product} {pid : Nat} {f : ℤ → ℤ}
    (hnn : stocksNonneg ps)
    (hf : ∀ p, findProduct ps pid = some p → 0 ≤ f p.stock) :
    stocksNonneg (modifyStockFirst ps pid f) := by
  induction ps with
  | nil => exact hnn
  | cons p rest ih =>
    by_cases hp : p.pid = pid
    · rw [modifyStockFirst_cons_pos hp]
      intro q hq
      rcases List.mem_cons.mp hq with h1 | h2
      · subst h1
        exact hf p (findProduct_cons_pos hp)
      · exact hnn q (List.mem_cons_of_mem _ h2)
    · rw [modifyStockFirst_cons_neg hp]
      intro q hq
      rcases List.mem_cons.mp hq with h1 | h2
      · subst h1; exact hnn q (List.mem_cons_self _ _)
      · have hnn' : stocksNonneg rest := fun x hx => hnn x (List.mem_cons_of_mem _ hx)
        have hf' : ∀ x, findProduct rest pid = some x → 0 ≤ f x.stock := by
          intro x hx
          exact hf x (by rw [findProduct_cons_neg hp]; exact hx)
        exact ih hnn' hf' q h2

theorem modify_modify_self {ps : List Product} {pid : Nat} {f g : ℤ → ℤ} :
    modifyStockFirst (modifyStockFirst ps pid f) pid g =
      modifyStockFirst ps pid (fun s => g (f s)) := by
  induction ps with
  | nil => rfl
  | cons p rest ih =>
    by_cases hp : p.pid = pid
    · rw [modifyStockFirst_cons_pos hp,
        modifyStockFirst_cons_pos (p := { p with stock := f p.stock }) hp,
        modifyStockFirst_cons_pos hp]
    · rw [modifyStockFirst_cons_neg hp, modifyStockFirst_cons_neg hp,
        modifyStockFirst_cons_neg hp, ih]

theorem modify_id {ps : List Product} {pid : Nat} :
    modifyStockFirst ps pid (fun s => s) = ps := by
  induction ps with
  | nil => rfl
  | cons p rest ih =>
    by_cases hp : p.pid = pid
    · rw [modifyStockFirst_cons_pos hp]
    · rw [modifyStockFirst_cons_neg hp, ih]

theorem modify_comm {ps : List Product} {pid qid : Nat} {f g : ℤ → ℤ}
    (h : pid ≠ qid) :
    modifyStockFirst (modifyStockFirst ps pid f) qid g =
      modifyStockFirst (modifyStockFirst ps qid g) pid f := by
  induction ps with
  | nil => rfl
  | cons p rest ih =>
    by_cases hp : p.pid = pid
    · have hq : ¬ p.pid = qid := by intro hc; exact h (by rw [← hp, hc])
      rw [modifyStockFirst_cons_pos hp,
        modifyStockFirst_cons_neg (p := { p with stock := f p.stock }) hq,
        modifyStockFirst_cons_neg hq,
        modifyStockFirst_cons_pos hp]
    · by_cases hq : p.pid = qid
      · rw [modifyStockFirst_cons_neg hp, modifyStockFirst_cons_pos hq,
          modifyStockFirst_cons_pos hq,
          modifyStockFirst_cons_neg (p := { p with stock := g p.stock }) hp]
      · rw [modifyStockFirst_cons_neg hp, modifyStockFirst_cons_neg hq,
          modifyStockFirst_cons_neg hq, modifyStockFirst_cons_neg hp, ih]

theorem decStocks_cons {ps : List Product} {i : OrderItem} {items : List OrderItem} :
    decStocks ps (i :: items) =
      decStocks (modifyStockFirst ps i.product (fun s => s + -(i.quantity : ℤ))) items := rfl

theorem incStocks_cons {ps : List Product} {i : OrderItem} {items : List OrderItem} :
    incStocks ps (i :: items) =
      incStocks (modifyStockFirst ps i.product (fun s => s + (i.quantity : ℤ))) items := rfl

theorem modify_decStocks_comm {ps : List Product} {items : List OrderItem} {pid : Nat}
    {f : ℤ → ℤ} (h : pid ∉ items.map (fun i => i.product)) :
    modifyStockFirst (decStocks ps items) pid f =
      decStocks (modifyStockFirst ps pid f) items := by
  induction items generalizing ps with
  | nil => rfl
  | cons i rest ih =>
    simp only [List.map_cons, List.mem_cons, not_or] at h
    rw [decStocks_cons, decStocks_cons, ih h.2, modify_comm h.1]

theorem incStocks_decStocks {ps : List Product} {items : List OrderItem}
    (h : (items.map (fun i => i.product)).Nodup) :
    incStocks (decStocks ps items) items = ps := by
  induction items generalizing ps with
  | nil => rfl
  | cons i rest ih =>
    simp only [List.map_cons, List.nodup_cons] at h
    rw [decStocks_cons, incStocks_cons, modify_decStocks_comm h.1, modify_modify_self]
    have hfun : (fun s => (s + -(i.quantity : ℤ)) + (i.quantity : ℤ)) = fun s : ℤ => s := by
      funext s; omega
    rw [hfun, modify_id]
    exact ih h.2

theorem incStocks_nonneg {ps : List Product} {items : List OrderItem}
    (hnn : stocksNonneg ps) : stocksNonneg (incStocks ps items) := by
  induction items generalizing ps with
  | nil => exact hnn
  | cons i rest ih =>
    rw [incStocks_cons]
    refine ih (stocksNonneg_modify hnn ?_)
    intro p hp
    have hmem : p ∈ ps := List.mem_of_find?_eq_some hp
    have h1 := hnn p hmem
    have h2 : (0 : ℤ) ≤ (i.quantity : ℤ) := Int.ofNat_nonneg _
    omega

theorem decStocks_nonneg {ps : List Product} {items : List OrderItem}
    (hnn : stocksNonneg ps)
    (hnd : (items.map (fun i => i.product)).Nodup)
    (hs : ∀ i ∈ items, ∃ p, findProduct ps i.product = some p ∧ (i.quantity : ℤ) ≤ p.stock) :
    stocksNonneg (decStocks ps items) := by
  induction items generalizing ps with
  | nil => exact hnn
  | cons i rest ih =>
    simp only [List.map_cons, List.nodup_cons] at hnd
    rw [decStocks_cons]
    refine ih ?_ hnd.2 ?_
    · refine stocksNonneg_modify hnn ?_
      intro p hp
      obtain ⟨q, hq1, hq2⟩ := hs i (List.mem_cons_self _ _)
      rw [hp] at hq1
      obtain rfl : p = q := by injection hq1
      have hmem : p ∈ ps := List.mem_of_find?_eq_some hp
      have := hnn p hmem
      omega
    · intro j hj
      obtain ⟨q, hq1, hq2⟩ := hs j (List.mem_cons_of_mem _ hj)
      refine ⟨q, ?_, hq2⟩
      have hne : j.product ≠ i.product := by
        intro hc
        exact hnd.1 (by rw [← hc]; exact List.mem_map_of_mem _ hj)
      rw [findProduct_modify_ne hne]
      exact hq1

theorem validateItems_ok_spec {ps : List Product} {items : List CartItem}
    {ois : List OrderItem} {sub : ℚ}
    (h : validateItems ps items = Except.ok (ois, sub)) :
    ois.map (fun i => i.product) = items.map (fun i => i.product) ∧
    (∀ oi ∈ ois, ∃ p, findProduct ps oi.product = some p ∧ p.isActive = true ∧
      (oi.quantity : ℤ) ≤ p.stock ∧ oi.price = p.price ∧
      oi.subtotal = oi.price * (oi.quantity : ℚ)) ∧
    sub = (ois.map (fun i => i.subtotal)).sum := by
  induction items generalizing ois sub with
  | nil =>
    rw [validateItems] at h
    obtain ⟨h1, h2⟩ : ([] : List OrderItem) = ois ∧ (0 : ℚ) = sub := by
      injection h with h'
      exact ⟨congrArg Prod.fst h', congrArg Prod.snd h'⟩
    subst h1; subst h2
    simp
  | cons ci rest ih =>
    rw [validateItems] at h
    split at h
    · exact absurd h (by simp)
    · rename_i product hfind
      split at h
      · exact absurd h (by simp)
      · rename_i hact
        split at h
        · exact absurd h (by simp)
        · rename_i hstock
          split at h
          · exact absurd h (by simp)
          · rename_i res heq
            obtain ⟨h1, h2⟩ :
                ({ product := product.pid, name := product.name, price := product.price,
                   quantity := ci.quantity,
                   subtotal := product.price * (ci.quantity : ℚ) } : OrderItem) :: res.1 = ois ∧
                  product.price * (ci.quantity : ℚ) + res.2 = sub := by
              injection h with h'
              exact ⟨congrArg Prod.fst h', congrArg Prod.snd h'⟩
            subst h1; subst h2
            obtain ⟨ihk, ihp, ihs⟩ :=
              ih (show validateItems ps rest = Except.ok (res.1, res.2) by rw [heq])
            have hpid : product.pid = ci.product := findProduct_some_pid hfind
            refine ⟨?_, ?_, ?_⟩
            · simp only [List.map_cons, ihk, hpid]
            · intro oi hoi
              rcases List.mem_cons.mp hoi with h1 | h2
              · subst h1
                refine ⟨product, ?_, ?_, ?_, rfl, rfl⟩
                · simpa [hpid] using hfind
                · simpa using hact
                · simpa using Int.not_lt.mp hstock
              · exact ihp oi h2
            · simp [ihs]

theorem foldl_add_eq {α M : Type} [AddCommMonoid M] (f : α → M) (l : List α) (init : M) :
    l.foldl (fun t a => t + f a) init = init + (l.map f).sum := by
  induction l generalizing init with
  | nil => simp
  | cons a rest ih =>
    simp only [List.foldl_cons, List.map_cons, List.sum_cons, ih, add_assoc]

theorem placeOrder_ok_spec {db : DB} {req : PlaceReq} {db' : DB} {o : Order}
    (h : placeOrder db req = Except.ok (db', o)) :
    ∃ ois sub,
      validateItems db.products db.cart.items = Except.ok (ois, sub) ∧
      o.oid = db.orders.length ∧
      o.user = req.userId ∧
      o.items = ois.map (fun i => { i with subtotal := i.price * (i.quantity : ℚ) }) ∧
      o.subtotal = (ois.map (fun i => i.subtotal)).sum ∧
      o.tax = sub * (8 / 100) ∧
      o.shipping = (if sub > 50 then (0 : ℚ) else 10) ∧
      o.totalAmount = o.subtotal + o.tax + o.shipping ∧
      o.orderStatus = OrderStatus.pending ∧
      o.paymentStatus = PaymentStatus.pending ∧
      db'.products = decStocks db.products ois ∧
      db'.cart = (db.cart.clearCart).save ∧
      db'.orders = db.orders ++ [o] := by
  rw [placeOrder] at h
  split at h
  · exact absurd h (by simp)
  · split at h
    · exact absurd h (by simp)
    · rename_i addr
      split at h
      · exact absurd h (by simp)
      · split at h
        · exact absurd h (by simp)
        · split at h
          · exact absurd h (by simp)
          · rename_i res heq
            refine ⟨res.1, res.2, by rw [heq], ?_⟩
            obtain ⟨h1, h2⟩ : _ ∧ _ := by
              injection h with h'
              exact ⟨congrArg Prod.fst h', congrArg Prod.snd h'⟩
            subst h1
            subst h2
            simp [Order.save, Order.calculateTotals, foldl_add_eq]

theorem addItemGo_keys (pid : Nat) (q : Nat) (price : ℚ) (items : List CartItem) :
    (Cart.addItemGo pid q price items).map (fun i => i.product) =
      if pid ∈ items.map (fun i => i.product) then items.map (fun i => i.product)
      else items.map (fun i => i.product) ++ [pid] := by
  induction items with
  | nil => simp [Cart.addItemGo]
  | cons it rest ih =>
    by_cases hp : it.product = pid
    · simp [Cart.addItemGo, hp]
    · by_cases hm : pid ∈ rest.map (fun i => i.product)
      · simp [Cart.addItemGo, hp, hm, ih, Ne.symm hp]
      · simp [Cart.addItemGo, hp, hm, ih, Ne.symm hp]

theorem cartKeysNodup_addItem {c : Cart} {p : Product} {q : Nat} (h : cartKeysNodup c) :
    cartKeysNodup ((c.addItem p q).save) := by
  unfold cartKeysNodup Cart.addItem Cart.save Cart.calculateTotals at *
  simp only
  rw [addItemGo_keys]
  split
  · exact h
  · rename_i hmem
    simp [List.nodup_append, h, hmem]

theorem updateItemQuantityGo_keys_sublist (pid : Nat) (q : ℤ) (items : List CartItem) :
    ((Cart.updateItemQuantityGo pid q items).map (fun i => i.product)).Sublist
      (items.map (fun i => i.product)) := by
  induction items with
  | nil => simp [Cart.updateItemQuantityGo]
  | cons it rest ih =>
    by_cases hp : it.product = pid
    · by_cases hq : q ≤ 0
      · simp only [Cart.updateItemQuantityGo, hp, if_pos, hq, ite_true, beq_self_eq_true]
        exact List.sublist_cons_of_sublist _ (List.Sublist.refl _)
      · simp only [Cart.updateItemQuantityGo, hp, hq, ite_false, beq_self_eq_true, if_pos,
          List.map_cons]
        exact List.Sublist.cons₂ _ (List.Sublist.refl _)
    · have : ¬ (it.product == pid) = true := by simpa using hp
      simp only [Cart.updateItemQuantityGo, this, ite_false, List.map_cons, if_neg,
        Bool.false_eq_true, not_false_eq_true]
      exact List.Sublist.cons₂ _ ih

theorem cancelOrder_ok_spec {db : DB} {oid : Nat} {reason : Option String} {who : Principal}
    {db2 : DB} (h : cancelOrder db oid reason who = Except.ok db2) :
    ∃ o, findOrder db.orders oid = some o ∧
      (o.orderStatus = OrderStatus.pending ∨ o.orderStatus = OrderStatus.confirmed) ∧
      db2.products = incStocks db.products o.items ∧
      db2.cart = db.cart ∧
      db2.orders = replaceOrder db.orders (o.updateStatus OrderStatus.cancelled reason) := by
  rw [cancelOrder] at h
  split at h
  · exact absurd h (by simp)
  · rename_i o hfind
    split at h
    · exact absurd h (by simp)
    · split at h
      · exact absurd h (by simp)
      · rename_i hcan
        refine ⟨o, hfind, ?_, ?_, ?_, ?_⟩
        · have : o.canBeCancelled = true := by
            by_contra hc
            exact hcan (by simpa using hc)
          unfold Order.canBeCancelled at this
          simpa using this
        all_goals
          obtain rfl : _ = db2 := by injection h
          rfl

theorem updateOrderStatus_ok_spec {db : DB} {oid : Nat} {status : Option OrderStatus}
    {reason : Option String} {db2 : DB}
    (h : updateOrderStatus db oid status reason = Except.ok db2) :
    ∃ st o, status = some st ∧ findOrder db.orders oid = some o ∧
      db2.products = db.products ∧ db2.cart = db.cart ∧
      db2.orders = replaceOrder db.orders (o.updateStatus st reason) := by
  rw [updateOrderStatus.eq_def] at h
  split at h
  · exact absurd h (by simp)
  · rename_i st
    split at h
    · exact absurd h (by simp)
    · rename_i o hfind
      refine ⟨st, o, rfl, hfind, ?_, ?_, ?_⟩
      all_goals
        obtain rfl : _ = db2 := by injection h
        rfl

theorem addToCart_ok_spec {db : DB} {pid : Nat} {q : ℤ} {db2 : DB}
    (h : addToCart db pid q = Except.ok db2) :
    ∃ product, db2.products = db.products ∧
      db2.cart = (db.cart.addItem product q.toNat).save ∧ db2.orders = db.orders := by
  rw [addToCart] at h
  split at h
  · exact absurd h (by simp)
  · split at h
    · exact absurd h (by simp)
    · rename_i product hfind
      split at h
      · exact absurd h (by simp)
      · split at h
        all_goals simp only [] at h
        all_goals
          split at h
          · exact absurd h (by simp)
          · refine ⟨product, ?_, ?_, ?_⟩
            all_goals
              obtain rfl : _ = db2 := by injection h
              rfl

theorem updateCartItem_ok_spec {db : DB} {pid : Nat} {q : ℤ} {db2 : DB}
    (h : updateCartItem db pid q = Except.ok db2) :
    db2.products = db.products ∧ db2.orders = db.orders ∧
      (db2.cart = (db.cart.removeItem pid).save ∨
        db2.cart = (db.cart.updateItemQuantity pid q).save) := by
  rw [updateCartItem] at h
  split at h
  · exact absurd h (by simp)
  · split at h
    · exact absurd h (by simp)
    · split at h
      · refine ⟨?_, ?_, Or.inl ?_⟩
        all_goals
          obtain rfl : _ = db2 := by injection h
          rfl
      · split at h
        · exact absurd h (by simp)
        · split at h
          · exact absurd h (by simp)
          · split at h
            · exact absurd h (by simp)
            · refine ⟨?_, ?_, Or.inr ?_⟩
              all_goals
                obtain rfl : _ = db2 := by injection h
                rfl

theorem removeFromCart_ok_spec {db : DB} {pid : Nat} {db2 : DB}
    (h : removeFromCart db pid = Except.ok db2) :
    db2.products = db.products ∧ db2.orders = db.orders ∧
      db2.cart = (db.cart.removeItem pid).save := by
  rw [removeFromCart] at h
  split at h
  · refine ⟨?_, ?_, ?_⟩
    all_goals
      obtain rfl : _ = db2 := by injection h
      rfl
  · exact absurd h (by simp)

theorem updateProductStock_ok_spec {db : DB} {id : Nat} {stock : Option ℤ}
    {operation : String} {db2 : DB}
    (h : updateProductStock db id stock operation = Except.ok db2) :
    ∃ ns : ℤ, 0 ≤ ns ∧ db2.products = modifyStockFirst db.products id (fun _ => ns) ∧
      db2.cart = db.cart ∧ db2.orders = db.orders := by
  rw [updateProductStock.eq_def] at h
  split at h
  · exact absurd h (by simp)
  · rename_i s
    split at h
    · exact absurd h (by simp)
    · rename_i product hfind
      split at h
      · simp only [] at h
        split at h
        · exact absurd h (by simp)
        · rename_i hns
          refine ⟨newStockValue operation product.stock s, by omega, ?_, ?_, ?_⟩
          all_goals
            obtain rfl : _ = db2 := by injection h
            rfl
      · exact absurd h (by simp)

theorem getCart_spec (db : DB) :
    (getCart db).products = db.products ∧
    (getCart db).orders = db.orders ∧
    (getCart db).cart.items = db.cart.items.filter (liveLine db.products) ∧
    ((getCart db).cart.items ≠ db.cart.items →
      (getCart db).cart.totalItems = ((getCart db).cart.items.map (fun i => i.quantity)).sum ∧
      (getCart db).cart.totalAmount =
        ((getCart db).cart.items.map (fun i => i.price * (i.quantity : ℚ))).sum) := by
  by_cases hlen :
      (db.cart.items.filter (liveLine db.products)).length ≠ db.cart.items.length
  · have hg : getCart db = { db with cart :=
        (Cart.calculateTotals
          { db.cart with items := db.cart.items.filter (liveLine db.products) }).save } := by
      unfold getCart
      split
      · rfl
      · rename_i hc
        exact absurd hlen hc
    rw [hg]
    refine ⟨rfl, rfl, ?_, ?_⟩
    · simp [Cart.calculateTotals, Cart.save]
    · intro _
      constructor
      · simp [Cart.save, Cart.calculateTotals, foldl_add_eq]
      · simp [Cart.save, Cart.calculateTotals, foldl_add_eq]
  · have hfix : db.cart.items.filter (liveLine db.products) = db.cart.items := by
      refine (List.filter_sublist _).eq_of_length ?_
      omega
    have hg : getCart db = db := by
      unfold getCart
      split
      · rename_i hc
        exact absurd hc hlen
      · rfl
    rw [hg]
    exact ⟨rfl, rfl, hfix.symm, fun hne => absurd rfl hne⟩

theorem cartKeysNodup_removeItem {c : Cart} {pid : Nat} (h : cartKeysNodup c) :
    cartKeysNodup ((c.removeItem pid).save) := by
  unfold cartKeysNodup Cart.removeItem Cart.save Cart.calculateTotals at *
  simp only
  exact List.Nodup.sublist ((List.filter_sublist _).map _) h

theorem cartKeysNodup_updateItemQuantity {c : Cart} {pid : Nat} {q : ℤ}
    (h : cartKeysNodup c) : cartKeysNodup ((c.updateItemQuantity pid q).save) := by
  unfold cartKeysNodup Cart.updateItemQuantity Cart.save Cart.calculateTotals at *
  simp only
  exact List.Nodup.sublist (updateItemQuantityGo_keys_sublist pid q c.items) h

theorem run_preserves_Inv {db : DB} (op : Op) (h : Inv db) : Inv (run db op) := by
  obtain ⟨hnn, hnd⟩ := h
  cases op with
  | place req =>
    simp only [run]
    split
    · rename_i res hres
      obtain ⟨ois, sub, hval, _, _, _, _, _, _, _, _, _, hprod, hcart, _⟩ :=
        placeOrder_ok_spec hres
      obtain ⟨hkeys, hitems, _⟩ := validateItems_ok_spec hval
      constructor
      · rw [hprod]
        refine decStocks_nonneg hnn ?_ ?_
        · rw [hkeys]; exact hnd
        · intro i hi
          obtain ⟨p, hp1, _, hp3, _, _⟩ := hitems i hi
          exact ⟨p, hp1, hp3⟩
      · rw [hcart]
        simp [cartKeysNodup, Cart.clearCart, Cart.save, Cart.calculateTotals]
    · exact ⟨hnn, hnd⟩
  | cancel oid reason who =>
    simp only [run]
    split
    · rename_i db2 hres
      obtain ⟨o, _, _, hprod, hcart, _⟩ := cancelOrder_ok_spec hres
      exact ⟨hprod ▸ incStocks_nonneg hnn, hcart ▸ hnd⟩
    · exact ⟨hnn, hnd⟩
  | adminStatus oid status reason =>
    simp only [run]
    split
    · rename_i db2 hres
      obtain ⟨st, o, _, _, hprod, hcart, _⟩ := updateOrderStatus_ok_spec hres
      exact ⟨hprod ▸ hnn, hcart ▸ hnd⟩
    · exact ⟨hnn, hnd⟩
  | cartGet =>
    obtain ⟨hp, _, hi, _⟩ := getCart_spec db
    simp only [run]
    constructor
    · rw [hp]; exact hnn
    · unfold cartKeysNodup
      rw [hi]
      exact List.Nodup.sublist ((List.filter_sublist _).map _) hnd
  | cartAdd pid q =>
    simp only [run]
    split
    · rename_i db2 hres
      obtain ⟨product, hprod, hcart, _⟩ := addToCart_ok_spec hres
      exact ⟨hprod ▸ hnn, hcart ▸ cartKeysNodup_addItem hnd⟩
    · exact ⟨hnn, hnd⟩
  | cartUpdate pid q =>
    simp only [run]
    split
    · rename_i db2 hres
      obtain ⟨hprod, _, hcart⟩ := updateCartItem_ok_spec hres
      refine ⟨hprod ▸ hnn, ?_⟩
      rcases hcart with hc | hc
      · exact hc ▸ cartKeysNodup_removeItem hnd
      · exact hc ▸ cartKeysNodup_updateItemQuantity hnd
    · exact ⟨hnn, hnd⟩
  | cartRemove pid =>
    simp only [run]
    split
    · rename_i db2 hres
      obtain ⟨hprod, _, hcart⟩ := removeFromCart_ok_spec hres
      exact ⟨hprod ▸ hnn, hcart ▸ cartKeysNodup_removeItem hnd⟩
    · exact ⟨hnn, hnd⟩
  | cartClear =>
    refine ⟨hnn, ?_⟩
    simp [run, clearCartOp, cartKeysNodup, Cart.clearCart, Cart.save, Cart.calculateTotals]
  | stockUpdate id stock operation =>
    simp only [run]
    split
    · rename_i db2 hres
      obtain ⟨ns, hns, hprod, hcart, _⟩ := updateProductStock_ok_spec hres
      refine ⟨?_, hcart ▸ hnd⟩
      rw [hprod]
      exact stocksNonneg_modify hnn (fun p _ => hns)
    · exact ⟨hnn, hnd⟩

theorem lineError_none {ps : List Product} {ci : CartItem} (h : lineError ps ci = none) :
    ∃ p, findProduct ps ci.product = some p ∧ (!p.isActive) = false ∧
      ¬ (p.stock < (ci.quantity : ℤ)) := by
  unfold lineError at h
  split at h
  · exact absurd h (by simp)
  · rename_i p hfind
    split at h
    · exact absurd h (by simp)
    · split at h
      · exact absurd h (by simp)
      · rename_i h1 h2
        exact ⟨p, hfind, by simpa using h1, h2⟩

theorem validateItems_error_first {ps : List Product} {pre post : List CartItem}
    {ci : CartItem} {e : AppError}
    (hpre : ∀ cj ∈ pre, lineError ps cj = none)
    (hci : lineError ps ci = some e) :
    validateItems ps (pre ++ ci :: post) = Except.error e := by
  induction pre with
  | nil =>
    simp only [List.nil_append]
    rw [validateItems]
    unfold lineError at hci
    split at hci
    · rename_i hfind
      obtain rfl : _ = e := by injection hci
      simp [hfind]
    · rename_i product hfind
      split at hci
      · rename_i hact
        obtain rfl : _ = e := by injection hci
        simp [hfind, hact]
      · rename_i hact
        split at hci
        · rename_i hstock
          obtain rfl : _ = e := by injection hci
          simp [hfind, hact, hstock]
        · exact absurd hci (by simp)
  | cons cj pre' ih =>
    obtain ⟨p, hfind, hact, hstock⟩ := lineError_none (hpre cj (List.mem_cons_self _ _))
    have ih' := ih (fun x hx => hpre x (List.mem_cons_of_mem _ hx))
    simp only [List.cons_append]
    rw [validateItems]
    simp [hfind, hact, hstock, ih']

theorem findOrder_append_fresh {os : List Order} {o : Order}
    (h : ∀ x ∈ os, x.oid ≠ o.oid) : findOrder (os ++ [o]) o.oid = some o := by
  induction os with
  | nil => simp [findOrder]
  | cons x rest ih =>
    have hx : ¬ x.oid = o.oid := h x (List.mem_cons_self _ _)
    simp only [List.cons_append, findOrder, List.find?]
    have : (x.oid == o.oid) = false := by simpa using hx
    rw [this]
    exact ih (fun y hy => h y (List.mem_cons_of_mem _ hy))

theorem replaceOrder_append_fresh {os : List Order} {o o' : Order}
    (h : ∀ x ∈ os, x.oid ≠ o.oid) (heq : o'.oid = o.oid) :
    replaceOrder (os ++ [o]) o' = os ++ [o'] := by
  induction os with
  | nil => simp [replaceOrder, heq]
  | cons x rest ih =>
    have hx : ¬ x.oid = o'.oid := by rw [heq]; exact h x (List.mem_cons_self _ _)
    simp only [List.cons_append, replaceOrder]
    rw [if_neg (by simpa using hx)]
    exact congrArg (x :: ·) (ih (fun y hy => h y (List.mem_cons_of_mem _ hy)))

theorem updateStatus_orderStatus (o : Order) (st : OrderStatus) (reason : Option String) :
    (o.updateStatus st reason).orderStatus = st := by
  unfold Order.updateStatus Order.save Order.calculateTotals
  split
  · rfl
  · split <;> rfl

theorem updateStatus_oid (o : Order) (st : OrderStatus) (reason : Option String) :
    (o.updateStatus st reason).oid = o.oid := by
  unfold Order.updateStatus Order.save Order.calculateTotals
  split
  · rfl
  · split <;> rfl

theorem incStocks_map_subtotal {ps : List Product} {ois : List OrderItem} :
    incStocks ps (ois.map (fun i => { i with subtotal := i.price * (i.quantity : ℚ) })) =
      incStocks ps ois := by
  induction ois generalizing ps with
  | nil => rfl
  | cons i rest ih =>
    rw [List.map_cons, incStocks_cons, incStocks_cons]
    exact ih

/-- C1: for every store satisfying the schema invariants (non-negative
stocks, cart lines keyed by product) and every sequence of core
operations — order placement, cancellation, admin status update, cart
read and mutations, admin stock update — every product stock stays
non-negative: the only stock decrement, inside placeOrder, runs after the
per-line bound check that fails the placement with the insufficient-stock
StockError instead of driving stock below zero. -/
theorem C1_stock_never_negative (ops : List Op) (db : DB) (h : Inv db) :
    ∀ p ∈ (ops.foldl run db).products, 0 ≤ p.stock := by
  have hInv : Inv (ops.foldl run db) := by
    induction ops generalizing db with
    | nil => exact h
    | cons op rest ih => exact ih _ (run_preserves_Inv op h)
  exact hInv.1

/-- C1 witness: a concrete operation sequence — add to cart, place, cancel,
admin subtract beyond the remaining stock (clamped), read the cart — keeps
every stock non-negative. -/
theorem C1_witness :
    (([Op.cartAdd 1 2, Op.place reqW, Op.cancel 0 none ⟨7, Role.user⟩,
        Op.stockUpdate 1 (some 25) "subtract", Op.cartGet].foldl run dbC1W).products.all
      (fun p => decide (0 ≤ p.stock))) = true := by
  rw [List.all_eq_true]
  intro p hp
  exact decide_eq_true
    (C1_stock_never_negative _ dbC1W
      ⟨fun q hq => by
          simp only [dbC1W, List.mem_singleton] at hq
          subst hq
          decide,
        by simp [cartKeysNodup, dbC1W]⟩
      p hp)

/-- C8: the source places the stock read and bound check (orderController.js
line 56) and the stock write (the unconditional $inc of lines 100-103) in
separate store operations with awaits between them; in the interleaving
where both concurrent requests validate against stock 1 before either
writes, both succeed and the final stock is -1 — not one success and final
stock 0 as the claim states. -/
theorem C8_lost_update : interleavedPlacements 1 1 1 = (true, true, -1) := by decide

/-- C10: the admin status update modifies only the order collection: for
every target status, including cancelled, the product collection (hence
every stock) and the cart are unchanged. -/
theorem C10_admin_status_frame (db : DB) (oid : Nat) (status : Option OrderStatus)
    (reason : Option String) (db' : DB)
    (h : updateOrderStatus db oid status reason = Except.ok db') :
    db'.products = db.products ∧ db'.cart = db.cart := by
  obtain ⟨st, o, _, _, hprod, hcart, _⟩ := updateOrderStatus_ok_spec h
  exact ⟨hprod, hcart⟩

/-- C10 witness: marking the shipped order cancelled through the admin
endpoint leaves the product collection and the cart untouched, and the
stock still reads 8 — the restore loop belongs to cancelOrder only. -/
theorem C10_witness :
    (dbShipC.products = dbShip.products ∧ dbShipC.cart = dbShip.cart) ∧
      (findProduct dbShipC.products 1).map Product.stock = some 8 :=
  ⟨C10_admin_status_frame dbShip 0 (some OrderStatus.cancelled) none dbShipC
      (by with_unfolding_all decide),
    by decide⟩

/-- C9: getCart is not effect-free.  The returned store keeps products and
orders unchanged, but its cart holds exactly the lines whose product
exists, is active and has positive stock; when lines were pruned the
stored totals are recomputed from the remaining lines and the pruned cart
is what is persisted; every returned line references an active, in-stock
product. -/
theorem C9_getCart_prunes (db : DB) :
    (getCart db).products = db.products ∧
    (getCart db).orders = db.orders ∧
    (getCart db).cart.items = db.cart.items.filter (liveLine db.products) ∧
    (∀ item ∈ (getCart db).cart.items, ∃ p, findProduct db.products item.product = some p ∧
      p.isActive = true ∧ 0 < p.stock) ∧
    ((getCart db).cart.items ≠ db.cart.items →
      (getCart db).cart.totalItems = ((getCart db).cart.items.map (fun i => i.quantity)).sum ∧
      (getCart db).cart.totalAmount =
        ((getCart db).cart.items.map (fun i => i.price * (i.quantity : ℚ))).sum) := by
  obtain ⟨h1, h2, h3, h4⟩ := getCart_spec db
  refine ⟨h1, h2, h3, ?_, h4⟩
  intro item hitem
  rw [h3] at hitem
  have hlive := (List.mem_filter.mp hitem).2
  unfold liveLine at hlive
  split at hlive
  · rename_i p hfp
    rw [Bool.and_eq_true] at hlive
    exact ⟨p, hfp, hlive.1, by simpa using hlive.2⟩
  · exact absurd hlive (by simp)

/-- C9 witness: on the four-line cart, getCart keeps only the live line
and persists recomputed totals 1 and 10. -/
theorem C9_witness :
    ((getCart dbC9).products = dbC9.products ∧
      (getCart dbC9).orders = dbC9.orders ∧
      (getCart dbC9).cart.items = dbC9.cart.items.filter (liveLine dbC9.products) ∧
      (∀ item ∈ (getCart dbC9).cart.items, ∃ p,
        findProduct dbC9.products item.product = some p ∧
        p.isActive = true ∧ 0 < p.stock) ∧
      ((getCart dbC9).cart.items ≠ dbC9.cart.items →
        (getCart dbC9).cart.totalItems =
          ((getCart dbC9).cart.items.map (fun i => i.quantity)).sum ∧
        (getCart dbC9).cart.totalAmount =
          ((getCart dbC9).cart.items.map (fun i => i.price * (i.quantity : ℚ))).sum)) ∧
    (getCart dbC9).cart.items = [⟨1, 1, 10⟩] ∧
    (getCart dbC9).cart.totalItems = 1 ∧ (getCart dbC9).cart.totalAmount = 10 :=
  ⟨C9_getCart_prunes dbC9, by with_unfolding_all decide⟩

/-- C4: every successful placement computes subtotal as the sum of unit
price times quantity over the order lines, tax as 8 percent of the
subtotal, shipping 0 when the subtotal exceeds 50 and 10 otherwise, and
the total as subtotal plus tax plus shipping. -/
theorem C4_totals {db : DB} {req : PlaceReq} {db' : DB} {o : Order}
    (h : placeOrder db req = Except.ok (db', o)) :
    o.subtotal = (o.items.map (fun i => i.price * (i.quantity : ℚ))).sum ∧
    o.tax = o.subtotal * (8 / 100) ∧
    o.shipping = (if o.subtotal > 50 then (0 : ℚ) else 10) ∧
    o.totalAmount = o.subtotal + o.tax + o.shipping := by
  obtain ⟨ois, sub, hval, _, _, hitems, hsub, htax, hship, htot, _, _, _, _, _⟩ :=
    placeOrder_ok_spec h
  obtain ⟨_, hper, hsum⟩ := validateItems_ok_spec hval
  have hsub' : o.subtotal = sub := by rw [hsub, hsum]
  have hmap : (o.items.map (fun i => i.price * (i.quantity : ℚ))).sum =
      (ois.map (fun i => i.subtotal)).sum := by
    rw [hitems, List.map_map]
    refine congrArg List.sum (List.map_congr_left ?_)
    intro i hi
    obtain ⟨p, _, _, _, _, hsubi⟩ := hper i hi
    simp [Function.comp, hsubi]
  refine ⟨?_, ?_, ?_, htot⟩
  · rw [hsub, hmap]
  · rw [htax, hsub']
  · rw [hship, hsub']

/-- C4 witness: the example cart gives subtotal 25, tax 2, shipping 10
(the subtotal is not above 50) and total 37. -/
theorem C4_witness :
    (oC4.subtotal = (oC4.items.map (fun i => i.price * (i.quantity : ℚ))).sum ∧
      oC4.tax = oC4.subtotal * (8 / 100) ∧
      oC4.shipping = (if oC4.subtotal > 50 then (0 : ℚ) else 10) ∧
      oC4.totalAmount = oC4.subtotal + oC4.tax + oC4.shipping) ∧
    oC4.subtotal = 25 ∧ oC4.tax = 2 ∧ oC4.shipping = 10 ∧ oC4.totalAmount = 37 :=
  ⟨@C4_totals dbC4 reqW
      ⟨[⟨1, "productA", 10, 98, true⟩, ⟨2, "productB", 5, 99, true⟩], ⟨[], 0, 0⟩, [oC4]⟩
      oC4 (by with_unfolding_all decide),
    by with_unfolding_all decide⟩

/-- C2 counterexample: a cart line failing validation because its product
is inactive makes placement fail with a ValidationError, not with the
StockError the claim asserts for every validation failure. -/
theorem C2_counterexample :
    placeOrder dbC2X reqW =
      Except.error (mkAppError "Product \"Gadget\" is no longer available" 400
        "ValidationError") ∧
    "ValidationError" ≠ "StockError" :=
  ⟨by with_unfolding_all decide, by decide⟩

/-- C2 (amended): a cart line failing validation aborts the whole
placement with the error of the first offending line — a ValidationError
when the product is missing or inactive, the StockError carrying the
available stock when the requested quantity exceeds it — and the store is
untouched, so no order is created and every stock is unchanged. -/
theorem C2_validation_failure_aborts :
    (∀ (db : DB) (req : PlaceReq) (addr : ShippingAddress) (pre post : List CartItem)
      (ci : CartItem) (e : AppError),
      req.paymentMethod ≠ "" → req.shippingAddress = some addr → checkAddress addr = none →
      db.cart.items = pre ++ ci :: post →
      (∀ cj ∈ pre, lineError db.products cj = none) →
      lineError db.products ci = some e →
      placeOrder db req = Except.error e ∧ run db (Op.place req) = db) ∧
    (∀ (ps : List Product) (ci : CartItem) (p : Product),
      findProduct ps ci.product = some p → p.isActive = true →
      p.stock < (ci.quantity : ℤ) →
      lineError ps ci = some (mkAppError ("Insufficient stock for \"" ++ p.name ++
        "\". Only " ++ toString p.stock ++ " available.") 400 "StockError")) := by
  constructor
  · intro db req addr pre post ci e hpm haddr hchk hitems hpre hci
    have hval : validateItems db.products db.cart.items = Except.error e := by
      rw [hitems]
      exact validateItems_error_first hpre hci
    have hne : db.cart.isEmpty = false := by
      simp [Cart.isEmpty, hitems]
    have hplace : placeOrder db req = Except.error e := by
      simp [placeOrder, hpm, haddr, hchk, hne, hval]
    refine ⟨hplace, ?_⟩
    simp [run, hplace]
  · intro ps ci p hfind hact hstock
    simp [lineError, hfind, hact, hstock]

/-- C2 witness: with stock 3 and requested quantity 5, placement fails
with the StockError reporting 3 available, and the store is unchanged. -/
theorem C2_witness :
    placeOrder dbC2W reqW =
      Except.error (mkAppError "Insufficient stock for \"Gizmo\". Only 3 available." 400
        "StockError") ∧
    run dbC2W (Op.place reqW) = dbC2W :=
  C2_validation_failure_aborts.1 dbC2W reqW addr1 [] [] ⟨1, 5, 4⟩ _
    (by decide) (by rfl) (by rfl) (by rfl) (by simp) (by with_unfolding_all decide)

theorem findOrder_some_oid {os : List Order} {oid : Nat} {o : Order}
    (h : findOrder os oid = some o) : o.oid = oid := by
  have h2 := List.find?_some h
  simpa using h2

theorem findOrder_cons_pos {x : Order} {os : List Order} {oid : Nat}
    (h : x.oid = oid) : findOrder (x :: os) oid = some x := by
  simp [findOrder, List.find?_cons_of_pos, h]

theorem findOrder_cons_neg {x : Order} {os : List Order} {oid : Nat}
    (h : ¬ x.oid = oid) : findOrder (x :: os) oid = findOrder os oid := by
  simp [findOrder, List.find?_cons_of_neg, h]

theorem findOrder_replaceOrder {os : List Order} {oid : Nat} {o o' : Order}
    (h : findOrder os oid = some o) (heq : o'.oid = o.oid) :
    findOrder (replaceOrder os o') oid = some o' := by
  have hoid : o.oid = oid := findOrder_some_oid h
  induction os with
  | nil => simp [findOrder] at h
  | cons x rest ih =>
    by_cases hx : x.oid = oid
    · rw [replaceOrder, if_pos (show (x.oid == o'.oid) = true by simp [hx, heq, hoid])]
      exact findOrder_cons_pos (by rw [heq, hoid])
    · rw [replaceOrder, if_neg (by simp [heq, hoid, hx])]
      rw [findOrder_cons_neg hx]
      rw [findOrder_cons_neg hx] at h
      exact ih h

/-- C3 counterexample: the admin status update moves a delivered order
back to confirmed and succeeds — the claim says any transition out of
delivered fails with an InvalidTransitionError, but no transition check
exists in the code. -/
theorem C3_counterexample :
    updateOrderStatus dbDel 0 (some OrderStatus.confirmed) none =
      Except.ok ⟨[⟨1, "Widget", 10, 8, true⟩], ⟨[], 0, 0⟩,
        [{ oDel with orderStatus := OrderStatus.confirmed }]⟩ ∧
    (findOrder dbDel.orders 0).map Order.orderStatus = some OrderStatus.delivered :=
  ⟨by with_unfolding_all decide, by decide⟩

/-- C3 (amended): the code enforces no transition state machine.
Order.updateStatus applies any requested status unconditionally, so the
admin endpoint succeeds for every found order and every target status —
including transitions out of delivered or cancelled — and sets exactly
the requested status.  Only cancellation is guarded: cancelOrder on an
order that is neither pending nor confirmed (for example shipped) fails
with an AppError of kind ValidationError and message "Order cannot be
cancelled at this stage" — there is no InvalidTransitionError — and the
failing request leaves the store, hence the order status and every
stock, unchanged. -/
theorem C3_no_transition_machine :
    (∀ (db : DB) (oid : Nat) (reason : Option String) (who : Principal) (o : Order),
      findOrder db.orders oid = some o →
      (who.role = Role.admin ∨ o.user = who.id) →
      o.orderStatus ≠ OrderStatus.pending → o.orderStatus ≠ OrderStatus.confirmed →
      cancelOrder db oid reason who =
        Except.error (mkAppError "Order cannot be cancelled at this stage" 400 "ValidationError") ∧
      run db (Op.cancel oid reason who) = db) ∧
    (∀ (db : DB) (oid : Nat) (st : OrderStatus) (reason : Option String) (o : Order),
      findOrder db.orders oid = some o →
      ∃ db', updateOrderStatus db oid (some st) reason = Except.ok db' ∧
        db'.products = db.products ∧
        (findOrder db'.orders oid).map Order.orderStatus = some st) := by
  constructor
  · intro db oid reason who o hfind hown hnp hnc
    have hcb : o.canBeCancelled = false := by
      cases horder : o.orderStatus <;> simp_all [Order.canBeCancelled]
    have hcond : ¬(who.role ≠ Role.admin ∧ o.user ≠ who.id) := by
      rcases hown with h | h <;> simp [h]
    have hcancel : cancelOrder db oid reason who =
        Except.error (mkAppError "Order cannot be cancelled at this stage" 400 "ValidationError") := by
      simp [cancelOrder, hfind, hcond, hcb]
    exact ⟨hcancel, by simp [run, hcancel]⟩
  · intro db oid st reason o hfind
    refine ⟨{ db with orders := replaceOrder db.orders (o.updateStatus st reason) }, ?_, rfl, ?_⟩
    · simp [updateOrderStatus, hfind]
    · rw [findOrder_replaceOrder hfind (updateStatus_oid o st reason)]
      simp [updateStatus_orderStatus]

/-- C3 witness: cancelling the shipped order yields the ValidationError
and leaves the store unchanged; the admin endpoint moves the delivered
order to confirmed. -/
theorem C3_witness :
    (cancelOrder dbShip 0 none ⟨7, Role.user⟩ =
      Except.error (mkAppError "Order cannot be cancelled at this stage" 400 "ValidationError") ∧
      run dbShip (Op.cancel 0 none ⟨7, Role.user⟩) = dbShip) ∧
    (∃ db', updateOrderStatus dbDel 0 (some OrderStatus.confirmed) none = Except.ok db' ∧
      db'.products = dbDel.products ∧
      (findOrder db'.orders 0).map Order.orderStatus = some OrderStatus.confirmed) :=
  ⟨C3_no_transition_machine.1 dbShip 0 none ⟨7, Role.user⟩ oShip (by decide)
      (Or.inr (by decide)) (by decide) (by decide),
    C3_no_transition_machine.2 dbDel 0 OrderStatus.confirmed none oDel (by decide)⟩

/-- C5: cancelling a successfully placed, still cancellable order exactly
reverses the inventory effect of the placement: the restore loop adds
back every ordered line quantity, so the product collection returns to
its pre-placement state, and the order status becomes cancelled. -/
theorem C5_cancel_reverses_placement {db : DB} {req : PlaceReq} {db1 : DB} {o : Order}
    (reason : Option String) (who : Principal)
    (hplace : placeOrder db req = Except.ok (db1, o))
    (hnd : cartKeysNodup db.cart)
    (hfresh : ∀ x ∈ db.orders, x.oid ≠ db.orders.length)
    (hwho : who.role = Role.admin ∨ who.id = req.userId) :
    ∃ db2, cancelOrder db1 o.oid reason who = Except.ok db2 ∧
      db2.products = db.products ∧
      (findOrder db2.orders o.oid).map Order.orderStatus = some OrderStatus.cancelled := by
  obtain ⟨ois, sub, hval, hoid, huser, hitems, _, _, _, _, hstat, _, hprod1, _, horders1⟩ :=
    placeOrder_ok_spec hplace
  obtain ⟨hkeys, _, _⟩ := validateItems_ok_spec hval
  have hfresh' : ∀ x ∈ db.orders, x.oid ≠ o.oid := by
    intro x hx
    rw [hoid]
    exact hfresh x hx
  have hfind1 : findOrder db1.orders o.oid = some o := by
    rw [horders1]
    exact findOrder_append_fresh hfresh'
  have hcond : ¬(who.role ≠ Role.admin ∧ o.user ≠ who.id) := by
    rcases hwho with h | h
    · simp [h]
    · simp [huser, h]
  have hcan : o.canBeCancelled = true := by
    simp [Order.canBeCancelled, hstat]
  have hcancel : cancelOrder db1 o.oid reason who = Except.ok
      { db1 with
        products := incStocks db1.products o.items
        orders := replaceOrder db1.orders (o.updateStatus OrderStatus.cancelled reason) } := by
    simp [cancelOrder, hfind1, hcond, hcan]
  refine ⟨_, hcancel, ?_, ?_⟩
  · show incStocks db1.products o.items = db.products
    rw [hitems, incStocks_map_subtotal, hprod1]
    apply incStocks_decStocks
    rw [hkeys]
    exact hnd
  · show (findOrder (replaceOrder db1.orders (o.updateStatus OrderStatus.cancelled reason))
      o.oid).map Order.orderStatus = some OrderStatus.cancelled
    rw [findOrder_replaceOrder hfind1 (updateStatus_oid o _ reason)]
    simp [updateStatus_orderStatus]

/-- C5 witness: placement of quantity 2 against stock 10 leaves 8;
cancelling that order restores the catalog to stock 10 and sets the
status to cancelled. -/
theorem C5_witness :
    (findProduct db1C5.products 1).map Product.stock = some 8 ∧
    (∃ db2, cancelOrder db1C5 oC5.oid (some "changed mind") ⟨7, Role.user⟩ = Except.ok db2 ∧
      db2.products = dbC5.products ∧
      (findOrder db2.orders oC5.oid).map Order.orderStatus = some OrderStatus.cancelled) :=
  ⟨by decide,
    @C5_cancel_reverses_placement dbC5 reqW db1C5 oC5
      (some "changed mind") ⟨7, Role.user⟩ (by with_unfolding_all decide)
      (by simp [cartKeysNodup, dbC5]) (by simp [dbC5]) (Or.inr (by decide))⟩

/-- C6 counterexample: adding the product with quantity 2 and, after its
price changed to 20, again with quantity 3 yields one line with quantity
5 — but the price snapshot stays 10: addItem does not refresh the
snapshot to the current product price as the claim states. -/
theorem C6_counterexample :
    ((cart0.addItem p6a 2).addItem p6b 3).items = [⟨1, 5, 10⟩] ∧
    p6b.price = 20 ∧
    ((cart0.addItem p6a 2).addItem p6b 3).items.map (fun i => i.price) ≠ [p6b.price] :=
  ⟨by with_unfolding_all decide, by decide, by with_unfolding_all decide⟩

theorem addItemGo_existing {pid : Nat} {q : Nat} {price : ℚ} {pre post : List CartItem}
    {line : CartItem} (hline : line.product = pid)
    (hpre : pid ∉ pre.map (fun i => i.product)) :
    Cart.addItemGo pid q price (pre ++ line :: post) =
      pre ++ { line with quantity := line.quantity + q } :: post := by
  induction pre with
  | nil => simp [Cart.addItemGo, hline]
  | cons x rest ih =>
    simp only [List.map_cons, List.mem_cons, not_or] at hpre
    simp only [List.cons_append, Cart.addItemGo]
    rw [if_neg (by simpa using fun hc => hpre.1 hc.symm)]
    exact congrArg (x :: ·) (ih hpre.2)

/-- C6 (amended): addItem on a product already in the cart updates the
existing line in place: the quantity grows additively — quantities 2 then
3 give one line with quantity 5, not two lines — while every other field
of the line is kept, in particular the price snapshot captured when the
line was first created; the snapshot is not refreshed to the current
product price. -/
theorem C6_addItem_additive {c : Cart} {productData : Product} {q : Nat}
    {pre post : List CartItem} {line : CartItem}
    (hitems : c.items = pre ++ line :: post)
    (hline : line.product = productData.pid)
    (hpre : productData.pid ∉ pre.map (fun i => i.product)) :
    (c.addItem productData q).items =
      pre ++ { line with quantity := line.quantity + q } :: post := by
  unfold Cart.addItem
  simp only
  rw [hitems]
  exact addItemGo_existing hline hpre

/-- C6 witness: two adds of the same product with quantities 2 and 3 give
one line with quantity 5 and the original price snapshot 10. -/
theorem C6_witness :
    ((cart0.addItem p6a 2).addItem p6b 3).items = [⟨1, 2 + 3, 10⟩] :=
  @C6_addItem_additive (cart0.addItem p6a 2) p6b 3 [] [] ⟨1, 2, 10⟩
    (by with_unfolding_all decide) (by decide) (by simp)

end ECom
